import Mathlib

/-!
Verification of the XET proxy server (`src/proxy-rust/src/main.rs`).

The Rust program is an axum HTTP gateway with four routes; the two download
routes validate or resolve a content hash and bridge the stdout of an external
tool (spawned via `tokio::process::Command`) into the HTTP response body.

Shallow embedding conventions:
  * Rust `String` values are modelled as `List Char` (the sequence of Unicode
    scalar values, matching Rust `str::chars`); `str::len` (a UTF-8 byte
    count) is modelled by `rustLen`.
  * The outcome of running an external process is a parameter (`ListingProc`
    for the buffered `.output()` call, `FetchProc` for the streamed `.spawn()`
    call); the handler bodies are translated as pure functions of those
    outcomes.
  * Each handler returns a `HandlerOut`: the handler's `Result` value
    (`none` models a Rust panic, such as an out-of-bounds string slice),
    the list of fetch-mode spawn attempts it performed, and the lines the
    stderr-draining task forwarded to the logging sink.
-/

namespace XetProxy

/-- The character sequence of a string literal (Rust `str::chars`). -/
def chars (s : String) : List Char := s.toList

/-- A single-quote character, used in the not-found message. -/
def sq : Char := Char.ofNat 39

/-- Number of bytes of the UTF-8 encoding of one Unicode scalar value. -/
def utf8Len (c : Char) : Nat :=
  if c.toNat < 128 then 1
  else if c.toNat < 2048 then 2
  else if c.toNat < 65536 then 3
  else 4

/-- Rust `str::len`: the length of the string in UTF-8 bytes. -/
def rustLen (s : List Char) : Nat := (s.map utf8Len).sum

/-- Rust `char::is_ascii_hexdigit`: `0-9`, `A-F`, `a-f`. -/
def isAsciiHexdigit (c : Char) : Bool :=
  decide ((48 ≤ c.toNat ∧ c.toNat ≤ 57) ∨ (65 ≤ c.toNat ∧ c.toNat ≤ 70) ∨
    (97 ≤ c.toNat ∧ c.toNat ≤ 102))

/-- Rust `char::is_whitespace`: the Unicode White_Space property. -/
def isRustWhitespace (c : Char) : Bool :=
  decide ((9 ≤ c.toNat ∧ c.toNat ≤ 13) ∨ c.toNat = 32 ∨ c.toNat = 133 ∨
    c.toNat = 160 ∨ c.toNat = 0x1680 ∨ (0x2000 ≤ c.toNat ∧ c.toNat ≤ 0x200A) ∨
    c.toNat = 0x2028 ∨ c.toNat = 0x2029 ∨ c.toNat = 0x202F ∨
    c.toNat = 0x205F ∨ c.toNat = 0x3000)

/-- Rust `str::trim`: drop leading and trailing whitespace. -/
def rustTrim (s : List Char) : List Char :=
  ((s.dropWhile isRustWhitespace).reverse.dropWhile isRustWhitespace).reverse

/-- Split a character sequence at every occurrence of one character
(auxiliary for `rustLines`); always returns a non-empty list of pieces. -/
def splitOnChar (c : Char) : List Char → List (List Char)
  | [] => [[]]
  | x :: xs =>
    match splitOnChar c xs with
    | [] => if x = c then [[], []] else [[x]]
    | l :: ls => if x = c then [] :: l :: ls else (x :: l) :: ls

/-- Remove one trailing carriage return, if present (part of `str::lines`). -/
def stripCrEnd (l : List Char) : List Char :=
  if l.getLast? = some '\r' then l.dropLast else l

/-- Rust `str::lines`: split at `\n` (also consuming a preceding `\r`);
a final line ending produces no empty trailing line, and a trailing `\r`
not followed by `\n` is kept. -/
def rustLines (s : List Char) : List (List Char) :=
  let parts := splitOnChar '\n' s
  if parts.getLast? = some [] then parts.dropLast.map stripCrEnd
  else parts.dropLast.map stripCrEnd ++ [(parts.getLast?).getD []]

/-- Boolean list-prefix test on character sequences. -/
def isPref : List Char → List Char → Bool
  | [], _ => true
  | _ :: _, [] => false
  | a :: as, b :: bs => a == b && isPref as bs

/-- First occurrence of `pat` in `s`: `some (before, after)` where `s =
before ++ pat ++ after` and `before` is shortest, `none` if `pat` does not
occur.  This is the search underlying Rust `str::contains` and
`str::split` with a string pattern. -/
def breakOnStr (pat : List Char) : List Char → Option (List Char × List Char)
  | [] => if isPref pat [] then some ([], []) else none
  | c :: cs =>
    if isPref pat (c :: cs) then some ([], (c :: cs).drop pat.length)
    else
      match breakOnStr pat cs with
      | none => none
      | some (pre, post) => some (c :: pre, post)

/-- Rust `str::contains` with a string pattern: substring test. -/
def containsStr (pat s : List Char) : Bool := (breakOnStr pat s).isSome

/-- Rust `s.split(pat).nth(1)`: the piece of `s` between the first
occurrence of `pat` and the next non-overlapping occurrence (the whole
remainder when `pat` occurs exactly once); `none` when `pat` does not
occur at all. -/
def splitNth1 (pat s : List Char) : Option (List Char) :=
  match breakOnStr pat s with
  | none => none
  | some (_, post) =>
    match breakOnStr pat post with
    | none => some post
    | some (pre2, _) => some pre2

/-- Rust byte slice `&s[..n]`: `some` of the characters making up the first
`n` UTF-8 bytes when `n` is in bounds and falls on a character boundary,
`none` (a Rust panic) otherwise. -/
def takeBytes : Nat → List Char → Option (List Char)
  | 0, _ => some []
  | _ + 1, [] => none
  | n + 1, c :: cs =>
    if utf8Len c ≤ n + 1 then
      (takeBytes (n + 1 - utf8Len c) cs).map (fun p => c :: p)
    else none

/-! ## Data model (`AppState`, errors, responses, process outcomes) -/

/-- `struct AppState` from the source: credential and tool path. -/
structure AppState where
  hf_token : List Char
  zig_bin_path : List Char
deriving DecidableEq

/-- `enum AppError` from the source. -/
inductive AppError where
  | BadRequest : List Char → AppError
  | NotFound : List Char → AppError
  | Internal : List Char → AppError
deriving DecidableEq

/-- `impl IntoResponse for AppError`: the HTTP status code paired with the
message placed in the `error` field of the JSON body. -/
def intoResponse : AppError → Nat × List Char
  | .BadRequest msg => (400, msg)
  | .NotFound msg => (404, msg)
  | .Internal msg => (500, msg)

/-- The streaming response built by `download_by_hash_impl`: status,
headers, and the byte sequence of the body stream. -/
structure HttpResponse where
  status : Nat
  contentType : List Char
  contentDisposition : List Char
  contentLength : Option Nat
  body : List Nat
deriving DecidableEq

/-- A configured `tokio::process::Command`: program, positional arguments,
environment additions, pipe configuration, and the writes performed on the
child's stdin (the source performs none). -/
structure Cmd where
  program : List Char
  args : List (List Char)
  envs : List (List Char × List Char)
  stdoutPiped : Bool
  stderrPiped : Bool
  stdinWrites : List (List Char)
deriving DecidableEq

/-- Outcome of the buffered listing invocation (`Command::output`):
whether the call itself succeeded, its error text otherwise, the child's
exit status, and its captured output channels (after `from_utf8_lossy`). -/
structure ListingProc where
  execOk : Bool
  execErr : List Char
  exitSuccess : Bool
  stdout : List Char
  stderr : List Char
deriving DecidableEq

/-- Outcome of the streamed fetch invocation (`Command::spawn`): whether the
spawn and the two pipe captures succeeded, the spawn error text otherwise,
the bytes the child writes to stdout, and the lines it writes to stderr. -/
structure FetchProc where
  spawnOk : Bool
  spawnErr : List Char
  stdoutCaptured : Bool
  stderrCaptured : Bool
  stdoutBytes : List Nat
  stderrLines : List (List Char)
deriving DecidableEq

instance : DecidableEq (Except AppError HttpResponse) := fun a b =>
  match a, b with
  | .ok x, .ok y => decidable_of_iff (x = y) (by simp)
  | .error x, .error y => decidable_of_iff (x = y) (by simp)
  | .ok _, .error _ => isFalse (by simp)
  | .error _, .ok _ => isFalse (by simp)

/-- What a handler did: its returned value (`none` models a panic), the
fetch-mode spawn attempts it made, and the lines its stderr-draining task
forwarded to the logging sink. -/
structure HandlerOut where
  result : Option (Except AppError HttpResponse)
  spawned : List Cmd
  stderrLog : List (List Char)
deriving DecidableEq

/-! ## The handlers, translated from `main.rs` -/

/-- The marker token `"xetHash:"` scanned for in listing lines. -/
def xetMarker : List Char := chars "xetHash:"

/-- The fixed placeholder repository identifier passed as first argument of
every fetch invocation (`"jedisct1/MiMo-7B-RL-GGUF"` in the source). -/
def placeholderRepo : List Char := chars "jedisct1/MiMo-7B-RL-GGUF"

/-- The `BadRequest` message of `download_by_hash`. -/
def badHashMsg : List Char :=
  chars "Invalid XET hash format (expected 64 hex characters)"

/-- The `NotFound` message of `download_by_path`
(`format! "File ... not found or not XET-enabled"` with the file name
between single quotes). -/
def notFoundMsg (file : List Char) : List Char :=
  chars "File " ++ [sq] ++ file ++ [sq] ++ chars " not found or not XET-enabled"

/-- The fetch-mode `Command` built in `download_by_hash_impl`: placeholder
repo and hash as the two positional arguments, `HF_TOKEN` in the
environment, both output pipes captured, nothing written to stdin. -/
def fetchCmd (st : AppState) (hash : List Char) : Cmd where
  program := st.zig_bin_path
  args := [placeholderRepo, hash]
  envs := [(chars "HF_TOKEN", st.hf_token)]
  stdoutPiped := true
  stderrPiped := true
  stdinWrites := []

/-- The `for line in stdout.lines()` loop of `download_by_path`: the first
line that contains the file name and the marker token yields the trimmed
`split("xetHash:").nth(1)` piece (the loop then breaks). -/
def findXetHash (file : List Char) : List (List Char) → Option (List Char)
  | [] => none
  | line :: rest =>
    if containsStr file line && containsStr xetMarker line then
      match splitNth1 xetMarker line with
      | some hashPart => some (rustTrim hashPart)
      | none => findXetHash file rest
    else findXetHash file rest

/-- Validity of an HTTP header value as enforced by the `http` library
when `Response::builder().header(...)` converts the formatted
`Content-Disposition` string: every byte must be a tab (9) or lie in
`32..=255` excluding 127.  Every byte of a non-ASCII character's UTF-8
encoding lies in `128..=255`, so the byte-level check factors through
characters. -/
def isValidHeaderValue (s : List Char) : Bool :=
  s.all fun c => decide (c.toNat = 9 ∨ (32 ≤ c.toNat ∧ c.toNat ≠ 127))

/-- Display text of the `http` library's invalid-header-value error — the
`e` rendered by `format!` into "Failed to build response: ..." when the
response builder fails on a bad `Content-Disposition` value. -/
def headerValueErrText : List Char := chars "failed to parse header value"

/-- `download_by_hash_impl`: spawn the fetch command with both pipes
captured, launch the stderr-draining task, and build the streaming 200
response whose `Content-Disposition` filename uses the byte slice
`&hash[..8]` (a panic — modelled as `none` — when that slice is out of
bounds or off a character boundary).  When the slice succeeds but the
resulting header value contains a byte the `http` library rejects, the
builder's error surfaces at `.body(...)` and the handler returns the
`Internal` error "Failed to build response: ...". -/
def download_by_hash_impl (st : AppState) (hash : List Char) (p : FetchProc) :
    HandlerOut :=
  let cmd := fetchCmd st hash
  if p.spawnOk = false then
    { result := some (.error (.Internal
        (chars "Failed to spawn zig process: " ++ p.spawnErr)))
      spawned := [cmd], stderrLog := [] }
  else if p.stdoutCaptured = false then
    { result := some (.error (.Internal (chars "Failed to capture stdout")))
      spawned := [cmd], stderrLog := [] }
  else if p.stderrCaptured = false then
    { result := some (.error (.Internal (chars "Failed to capture stderr")))
      spawned := [cmd], stderrLog := [] }
  else
    let log := p.stderrLines.map (fun l => chars "zig stderr: " ++ l)
    match takeBytes 8 hash with
    | none => { result := none, spawned := [cmd], stderrLog := log }
    | some pre8 =>
      let disp := chars "attachment; filename=\"" ++ pre8 ++ chars ".bin\""
      if isValidHeaderValue disp = false then
        { result := some (.error (.Internal
            (chars "Failed to build response: " ++ headerValueErrText)))
          spawned := [cmd], stderrLog := log }
      else
        { result := some (.ok
            { status := 200
              contentType := chars "application/octet-stream"
              contentDisposition := disp
              contentLength := none
              body := p.stdoutBytes })
          spawned := [cmd], stderrLog := log }

/-- `download_by_hash`: reject unless the hash is 64 bytes long and every
character is an ASCII hex digit, then delegate to the implementation. -/
def download_by_hash (st : AppState) (hash : List Char) (p : FetchProc) :
    HandlerOut :=
  if rustLen hash ≠ 64 ∨ hash.all isAsciiHexdigit = false then
    { result := some (.error (.BadRequest badHashMsg))
      spawned := [], stderrLog := [] }
  else download_by_hash_impl st hash p

/-- `download_by_path`: run the listing invocation to completion, scan its
stdout for the file's XET hash, and delegate to `download_by_hash_impl`
with the resolved hash (no re-validation). -/
def download_by_path (st : AppState) (owner repo file : List Char)
    (listing : ListingProc) (p : FetchProc) : HandlerOut :=
  if listing.execOk = false then
    { result := some (.error (.Internal
        (chars "Failed to execute zig binary: " ++ listing.execErr)))
      spawned := [], stderrLog := [] }
  else if listing.exitSuccess = false then
    { result := some (.error (.Internal
        (chars "Failed to list files: " ++ listing.stderr)))
      spawned := [], stderrLog := [] }
  else
    match findXetHash file (rustLines listing.stdout) with
    | none =>
      { result := some (.error (.NotFound (notFoundMsg file)))
        spawned := [], stderrLog := [] }
    | some hash => download_by_hash_impl st hash p

/-! ## Spec-side definitions

Definitions written from the words of the specification, to be compared
with the source-derived ones. -/

/-- Following the claim's words for the resolution rule: "the whitespace-
trimmed text following the marker token" on a line — everything after the
first occurrence of the marker, trimmed. -/
def specTrimmedAfterMarker (pat line : List Char) : List Char :=
  rustTrim (((breakOnStr pat line).getD ([], [])).2)

/-- One possible chunk decomposition of a byte sequence, as produced by the
`ReaderStream` wrapped around the child's stdout pipe: each read returns a
non-empty prefix of the remaining bytes, of size governed by the
environment's read-size schedule. -/
def chunkify : List Nat → List Nat → List (List Nat)
  | _, [] => []
  | [], rest => [rest]
  | n :: ns, rest => rest.take (n + 1) :: chunkify ns (rest.drop (n + 1))

/-- The byte sequence the HTTP client observes: the concatenation, in
order, of the chunks the response body stream yields. -/
def deliverToClient (readSizes : List Nat) (r : HttpResponse) : List Nat :=
  (chunkify readSizes r.body).flatten

/-! ## Concrete instances used by witnesses and counterexamples -/

/-- A concrete application state. -/
def stA : AppState where
  hf_token := chars "tok"
  zig_bin_path := chars "/usr/local/bin/xet-download"

/-- A fetch outcome where spawn and both pipe captures succeed. -/
def pA : FetchProc where
  spawnOk := true
  spawnErr := []
  stdoutCaptured := true
  stderrCaptured := true
  stdoutBytes := [1, 2, 3]
  stderrLines := [chars "progress 50"]

/-- The streamed response built for `h64` under `pA`. -/
def rA : HttpResponse where
  status := 200
  contentType := chars "application/octet-stream"
  contentDisposition := chars "attachment; filename=\"01234567.bin\""
  contentLength := none
  body := [1, 2, 3]

/-- A valid 64-hex-character hash. -/
def h64 : List Char :=
  chars "0123456789abcdef0123456789abcdef0123456789abcdef0123456789abcdef"

/-- An invalid hash (wrong length, non-hex). -/
def hBad : List Char := chars "zz"

/-- A successful listing whose second line is the first match for file
`model` (a later line also matches). -/
def listingOkA : ListingProc where
  execOk := true
  execErr := []
  exitSuccess := true
  stdout := chars "a xetHash: h1\nmodel xetHash: h2\nmodel xetHash: h3"
  stderr := []

/-- A listing invocation that exits non-zero with diagnostics. -/
def listingFailA : ListingProc where
  execOk := true
  execErr := []
  exitSuccess := false
  stdout := []
  stderr := chars "token invalid"

/-- A successful listing in which no line mentions `model.gguf`. -/
def listingNoMatchA : ListingProc where
  execOk := true
  execErr := []
  exitSuccess := true
  stdout := chars "other.bin - 10 bytes - xetHash: h9"
  stderr := []

/-- A successful listing that resolves file `f` to the three-character
hash `abc` (not 64 hex characters). -/
def listingShortHashA : ListingProc where
  execOk := true
  execErr := []
  exitSuccess := true
  stdout := chars "f xetHash: abc"
  stderr := []

/-- A hash of eight one-byte characters whose third character is the
control byte 0x01: not Unicode whitespace, so it survives trimming; the
filename slice succeeds, but the `Content-Disposition` header value is
rejected by the response builder. -/
def hCtl : List Char := chars "ab\x01defgh"

/-- A successful listing that resolves file `f` to `hCtl`. -/
def listingCtlA : ListingProc where
  execOk := true
  execErr := []
  exitSuccess := true
  stdout := chars "f xetHash: ab\x01defgh"
  stderr := []

/-! ## Helper lemmas -/

theorem utf8Len_one_of_hex {c : Char} (h : isAsciiHexdigit c = true) :
    utf8Len c = 1 := by
  have h' := of_decide_eq_true h
  have : c.toNat < 128 := by omega
  simp [utf8Len, this]

theorem rustLen_eq_length {s : List Char}
    (h : s.all isAsciiHexdigit = true) : rustLen s = s.length := by
  induction s with
  | nil => rfl
  | cons c cs ih =>
    rw [List.all_cons, Bool.and_eq_true] at h
    have h2 := ih h.2
    simp only [rustLen, List.map_cons, List.sum_cons,
      utf8Len_one_of_hex h.1, List.length_cons] at h2 ⊢
    omega

theorem impl_spawned (st : AppState) (hash : List Char) (p : FetchProc) :
    (download_by_hash_impl st hash p).spawned = [fetchCmd st hash] := by
  simp only [download_by_hash_impl]
  split
  · rfl
  · split
    · rfl
    · split
      · rfl
      · split
        · rfl
        · split <;> rfl

theorem takeBytes_prefix :
    ∀ (n : Nat) (s p : List Char), takeBytes n s = some p → ∃ t, s = p ++ t := by
  intro n s
  induction s generalizing n with
  | nil =>
    intro p h
    cases n with
    | zero =>
      simp [takeBytes] at h
      exact ⟨[], by simp [h]⟩
    | succ m => simp [takeBytes] at h
  | cons c cs ih =>
    intro p h
    cases n with
    | zero =>
      simp [takeBytes] at h
      exact ⟨c :: cs, by simp [h]⟩
    | succ m =>
      simp only [takeBytes] at h
      split at h
      · cases hb : takeBytes (m + 1 - utf8Len c) cs with
        | none => rw [hb] at h; simp at h
        | some q =>
          rw [hb] at h
          simp at h
          obtain ⟨t, ht⟩ := ih _ q hb
          exact ⟨t, by rw [← h, ht]; rfl⟩
      · simp at h

theorem takeBytes_of_ascii :
    ∀ (n : Nat) (s : List Char), (∀ c ∈ s, utf8Len c = 1) → n ≤ s.length →
      takeBytes n s = some (s.take n) := by
  intro n s
  induction s generalizing n with
  | nil =>
    intro _ hn
    have : n = 0 := Nat.le_zero.mp (by simpa using hn)
    subst this
    rfl
  | cons c cs ih =>
    intro hall hn
    cases n with
    | zero => rfl
    | succ m =>
      have hc : utf8Len c = 1 := hall c (by simp)
      simp only [takeBytes, hc]
      rw [if_pos (by omega)]
      have : m + 1 - 1 = m := by omega
      rw [this, ih m (fun d hd => hall d (by simp [hd])) (by simpa using hn)]
      rfl

theorem chunkify_flatten :
    ∀ (sizes bs : List Nat), (chunkify sizes bs).flatten = bs := by
  intro sizes
  induction sizes with
  | nil => intro bs; cases bs <;> simp [chunkify]
  | cons n ns ih =>
    intro bs
    cases bs with
    | nil => simp [chunkify]
    | cons b rest => simp [chunkify, ih, List.take_append_drop]

theorem isPref_append (p r : List Char) : isPref p (p ++ r) = true := by
  induction p with
  | nil => rfl
  | cons a as ih => simp [isPref, ih]

theorem containsStr_append (pat l r : List Char) :
    containsStr pat (l ++ (pat ++ r)) = true := by
  induction l with
  | nil =>
    cases hp : pat ++ r with
    | nil => simp_all [containsStr, breakOnStr, isPref]
    | cons c cs =>
      have : isPref pat (pat ++ r) = true := isPref_append pat r
      rw [hp] at this
      simp [containsStr, breakOnStr, this]
  | cons x xs ih =>
    simp only [containsStr, List.cons_append, breakOnStr]
    split
    · rfl
    · simp only [containsStr] at ih
      cases hb : breakOnStr pat (xs ++ (pat ++ r)) with
      | none => rw [hb] at ih; simp at ih
      | some pr => simp [hb]

theorem splitNth1_isSome {pat s : List Char} (h : containsStr pat s = true) :
    ∃ x, splitNth1 pat s = some x := by
  unfold containsStr at h
  rw [Option.isSome_iff_exists] at h
  obtain ⟨⟨a, b⟩, hb⟩ := h
  unfold splitNth1
  rw [hb]
  cases hb2 : breakOnStr pat b with
  | none => exact ⟨b, by simp [hb2]⟩
  | some pr2 =>
    obtain ⟨u, v⟩ := pr2
    exact ⟨u, by simp [hb2]⟩

theorem findXetHash_first (file line hp : List Char)
    (pre post : List (List Char))
    (hpre : ∀ l ∈ pre, (containsStr file l && containsStr xetMarker l) = false)
    (hline : (containsStr file line && containsStr xetMarker line) = true)
    (hhp : splitNth1 xetMarker line = some hp) :
    findXetHash file (pre ++ line :: post) = some (rustTrim hp) := by
  induction pre with
  | nil => simp [findXetHash, hline, hhp]
  | cons l ls ih =>
    have hl := hpre l (by simp)
    simp only [List.cons_append, findXetHash, hl]
    simp only [Bool.false_eq_true, if_false]
    exact ih (fun x hx => hpre x (by simp [hx]))

/-! ## Claim theorems -/

/-- Claim C1: a hash of exactly 64 ASCII hexadecimal characters passes
validation in `download_by_hash` and the handler proceeds to spawn the fetch
process; any other hash yields a `BadRequest` (status 400) with message
"Invalid XET hash format (expected 64 hex characters)" and no fetch process
is spawned. -/
theorem c1_hash_validation (st : AppState) (hash : List Char) (p : FetchProc) :
    ((hash.length = 64 ∧ hash.all isAsciiHexdigit = true) →
        download_by_hash st hash p = download_by_hash_impl st hash p ∧
        (download_by_hash st hash p).spawned = [fetchCmd st hash])
  ∧ (¬(hash.length = 64 ∧ hash.all isAsciiHexdigit = true) →
        (download_by_hash st hash p).result =
          some (.error (.BadRequest badHashMsg)) ∧
        (download_by_hash st hash p).spawned = [] ∧
        intoResponse (.BadRequest badHashMsg) = (400, badHashMsg)) := by
  constructor
  · rintro ⟨hlen, hhex⟩
    have hr : rustLen hash = 64 := by rw [rustLen_eq_length hhex, hlen]
    have hcond : ¬(rustLen hash ≠ 64 ∨ hash.all isAsciiHexdigit = false) := by
      push_neg
      exact ⟨by omega, by simp [hhex]⟩
    have heq : download_by_hash st hash p = download_by_hash_impl st hash p := by
      unfold download_by_hash
      rw [if_neg hcond]
    exact ⟨heq, by rw [heq, impl_spawned]⟩
  · intro h
    have hcond : rustLen hash ≠ 64 ∨ hash.all isAsciiHexdigit = false := by
      by_cases hhex : hash.all isAsciiHexdigit = true
      · left
        intro hr
        rw [rustLen_eq_length hhex] at hr
        exact h ⟨hr, hhex⟩
      · right
        exact Bool.eq_false_iff.mpr hhex
    refine ⟨?_, ?_, rfl⟩ <;> unfold download_by_hash <;> rw [if_pos hcond]

/-- Witness for C1: the well-formed hash `h64` is spawned, the malformed
hash `hBad` is rejected with the `BadRequest` message. -/
theorem c1_hash_validation_witness :
    (download_by_hash stA h64 pA).spawned = [fetchCmd stA h64] ∧
    (download_by_hash stA hBad pA).result =
      some (.error (.BadRequest badHashMsg)) :=
  ⟨((c1_hash_validation stA h64 pA).1 (by decide)).2,
   ((c1_hash_validation stA hBad pA).2 (by decide)).1⟩

/-- Claim C4: a listing invocation that exits non-zero makes
`download_by_path` fail with the `Internal` error
"Failed to list files: " followed by the stderr text, rendered as status
500 with that message
in the JSON error field, and no fetch process is spawned. -/
theorem c4_listing_failure (st : AppState) (owner repo file : List Char)
    (l : ListingProc) (p : FetchProc)
    (hexec : l.execOk = true) (hfail : l.exitSuccess = false) :
    (download_by_path st owner repo file l p).result =
      some (.error (.Internal (chars "Failed to list files: " ++ l.stderr)))
  ∧ intoResponse (.Internal (chars "Failed to list files: " ++ l.stderr)) =
      (500, chars "Failed to list files: " ++ l.stderr)
  ∧ (download_by_path st owner repo file l p).spawned = [] := by
  unfold download_by_path
  rw [if_neg (by simp [hexec]), if_pos hfail]
  exact ⟨rfl, rfl, rfl⟩

/-- Witness for C4: the scenario of the spec — listing exits 1 with
"token invalid" on stderr. -/
theorem c4_listing_failure_witness :
    (download_by_path stA (chars "o") (chars "r") (chars "f")
        listingFailA pA).result =
      some (.error (.Internal
        (chars "Failed to list files: " ++ listingFailA.stderr))) :=
  (c4_listing_failure stA (chars "o") (chars "r") (chars "f")
    listingFailA pA rfl rfl).1

/-- Claim C5: when no listing line contains both the file name and the
marker token, `download_by_path` fails with `NotFound` (status 404), the
message names the missing file, the status differs from the internal and
bad-request statuses, and no fetch process is spawned. -/
theorem c5_not_found (st : AppState) (owner repo file : List Char)
    (l : ListingProc) (p : FetchProc)
    (hexec : l.execOk = true) (hok : l.exitSuccess = true)
    (hres : findXetHash file (rustLines l.stdout) = none) :
    (download_by_path st owner repo file l p).result =
      some (.error (.NotFound (notFoundMsg file)))
  ∧ intoResponse (.NotFound (notFoundMsg file)) = (404, notFoundMsg file)
  ∧ containsStr file (notFoundMsg file) = true
  ∧ (download_by_path st owner repo file l p).spawned = []
  ∧ (∀ m, ((intoResponse (.Internal m)).1 ==
        (intoResponse (.NotFound (notFoundMsg file))).1) = false)
  ∧ (∀ m, ((intoResponse (.BadRequest m)).1 ==
        (intoResponse (.NotFound (notFoundMsg file))).1) = false) := by
  unfold download_by_path
  rw [if_neg (by simp [hexec]), if_neg (by simp [hok]), hres]
  refine ⟨rfl, rfl, ?_, rfl, fun m => rfl, fun m => rfl⟩
  have h := containsStr_append file (chars "File " ++ [sq])
    ([sq] ++ chars " not found or not XET-enabled")
  simpa [notFoundMsg, List.append_assoc] using h

/-- Witness for C5: a listing that never mentions `model.gguf`. -/
theorem c5_not_found_witness :
    (download_by_path stA (chars "o") (chars "r") (chars "model.gguf")
        listingNoMatchA pA).result =
      some (.error (.NotFound (notFoundMsg (chars "model.gguf"))))
  ∧ containsStr (chars "model.gguf") (notFoundMsg (chars "model.gguf")) = true :=
  ⟨(c5_not_found stA (chars "o") (chars "r") (chars "model.gguf")
      listingNoMatchA pA rfl rfl (by decide)).1,
   (c5_not_found stA (chars "o") (chars "r") (chars "model.gguf")
      listingNoMatchA pA rfl rfl (by decide)).2.2.1⟩

/-- Claim C6: a hash produced by the resolver is handed to
`download_by_hash_impl` unchanged and the fetch process is spawned with it,
with no 64-hex-character validation — the theorem imposes no constraint
whatsoever on the resolved hash `h2`. -/
theorem c6_no_revalidation (st : AppState) (owner repo file h2 : List Char)
    (l : ListingProc) (p : FetchProc)
    (hexec : l.execOk = true) (hok : l.exitSuccess = true)
    (hres : findXetHash file (rustLines l.stdout) = some h2) :
    download_by_path st owner repo file l p = download_by_hash_impl st h2 p
  ∧ (download_by_path st owner repo file l p).spawned = [fetchCmd st h2] := by
  have heq : download_by_path st owner repo file l p =
      download_by_hash_impl st h2 p := by
    unfold download_by_path
    rw [if_neg (by simp [hexec]), if_neg (by simp [hok]), hres]
  exact ⟨heq, by rw [heq, impl_spawned]⟩

/-- Witness for C6: the three-character, non-hex resolver hash `abc`
reaches the spawn unchecked. -/
theorem c6_no_revalidation_witness :
    (download_by_path stA (chars "o") (chars "r") (chars "f")
        listingShortHashA pA).spawned = [fetchCmd stA (chars "abc")] :=
  (c6_no_revalidation stA (chars "o") (chars "r") (chars "f") (chars "abc")
    listingShortHashA pA rfl rfl (by decide)).2

/-- Counterexample to C2 as stated: on the line
`f xetHash: aaa xetHash: bbb` (matching file `f`), the code resolves the
hash `aaa` — the piece of the line between the first and the second
occurrence of the marker — whereas the whitespace-trimmed text following
the marker token on that line is `aaa xetHash: bbb`. -/
theorem c2_resolver_cex :
    findXetHash (chars "f")
        (rustLines (chars "f xetHash: aaa xetHash: bbb")) = some (chars "aaa")
  ∧ specTrimmedAfterMarker xetMarker (chars "f xetHash: aaa xetHash: bbb") =
      chars "aaa xetHash: bbb"
  ∧ ((chars "aaa") == chars "aaa xetHash: bbb") = false := by
  exact ⟨by decide, by decide, by decide⟩

/-- Claim C2 (amended): the resolved hash is determined by the first listing
line that contains both the requested file name and the marker token
`xetHash:`, regardless of any later matching lines; it equals the
whitespace-trimmed piece of that line between the first occurrence of the
marker and the next occurrence (the whole remainder of the line when the
marker occurs exactly once) — i.e. the trimmed `split("xetHash:").nth(1)`
piece. -/
theorem c2_resolver_first_match (file stdout hp : List Char)
    (pre post : List (List Char)) (line : List Char)
    (hsplit : rustLines stdout = pre ++ line :: post)
    (hpre : ∀ l ∈ pre, (containsStr file l && containsStr xetMarker l) = false)
    (hline : (containsStr file line && containsStr xetMarker line) = true)
    (hhp : splitNth1 xetMarker line = some hp) :
    findXetHash file (rustLines stdout) = some (rustTrim hp) := by
  rw [hsplit]
  exact findXetHash_first file line hp pre post hpre hline hhp

/-- Witness for C2: in a three-line listing whose second and third lines
both match file `model`, the second (first matching) line wins. -/
theorem c2_resolver_first_match_witness :
    findXetHash (chars "model") (rustLines listingOkA.stdout) =
      some (rustTrim (chars " h2")) :=
  c2_resolver_first_match (chars "model") listingOkA.stdout (chars " h2")
    [chars "a xetHash: h1"] [chars "model xetHash: h3"]
    (chars "model xetHash: h2") (by decide) (by decide) (by decide) (by decide)

/-- Claim C3: under normal completion, the byte sequence the HTTP client
observes — the in-order concatenation of the chunks of the response body
stream, for any chunk decomposition the `ReaderStream` may produce — is
exactly the byte sequence the child process wrote to stdout: no
reordering, duplication, or truncation. -/
theorem c3_stream_identity (st : AppState) (hash : List Char) (p : FetchProc)
    (r : HttpResponse) (readSizes : List Nat)
    (h : (download_by_hash_impl st hash p).result = some (.ok r)) :
    deliverToClient readSizes r = p.stdoutBytes := by
  have hb : r.body = p.stdoutBytes := by
    simp only [download_by_hash_impl] at h
    split at h
    · simp at h
    · split at h
      · simp at h
      · split at h
        · simp at h
        · split at h
          · simp at h
          · split at h
            · simp at h
            · simp only [Option.some.injEq, Except.ok.injEq] at h
              rw [← h]
  unfold deliverToClient
  rw [hb, chunkify_flatten]

/-- Witness for C3: the concrete streamed response for `h64` delivers
exactly the child's stdout bytes under an arbitrary read-size schedule. -/
theorem c3_stream_identity_witness :
    deliverToClient [0, 4] rA = pA.stdoutBytes :=
  c3_stream_identity stA h64 pA rA [0, 4] (by decide)

/-- Counterexample to C7 as stated: the claim asserts a 200-framed
streaming response for every hash whose fetch process is spawned and whose
pipes are captured; for the resolver-producible hash `hCtl` (eight bytes,
containing the control byte 0x01) the spawn and both captures succeed, yet
the response builder rejects the `Content-Disposition` value and the
handler returns the `Internal` error "Failed to build response: ..."
(status 500) instead of the claimed framing — also when the hash arrives
through `download_by_path`.  (For a hash shorter than 8 bytes the handler
does not frame a response either: it panics, see the C8 counterexample.) -/
theorem c7_framing_cex :
    pA.spawnOk = true ∧ pA.stdoutCaptured = true ∧ pA.stderrCaptured = true
  ∧ (download_by_hash_impl stA hCtl pA).result =
      some (.error (.Internal
        (chars "Failed to build response: " ++ headerValueErrText)))
  ∧ (download_by_path stA (chars "o") (chars "r") (chars "f")
      listingCtlA pA).result =
      some (.error (.Internal
        (chars "Failed to build response: " ++ headerValueErrText)))
  ∧ intoResponse (.Internal
      (chars "Failed to build response: " ++ headerValueErrText)) =
      (500, chars "Failed to build response: " ++ headerValueErrText) := by
  exact ⟨rfl, rfl, rfl, by decide, by decide, rfl⟩

/-- Claim C7 (amended): whenever the fetch process is spawned and both
pipes are captured, the hash's first 8 bytes exist and end on a character
boundary (so the filename slice does not panic), and the resulting
`Content-Disposition` value passes the header-value byte check (so the
response builder does not fail), the streaming response is framed with
status 200, `Content-Type: application/octet-stream`, a
`Content-Disposition` attachment filename built from the 8-byte prefix of
the hash, and no `Content-Length`.  Every hash that passes the
64-hex-character validation satisfies these conditions. -/
theorem c7_response_framing (st : AppState) (hash pre8 : List Char)
    (p : FetchProc)
    (hspawn : p.spawnOk = true) (hout : p.stdoutCaptured = true)
    (herr : p.stderrCaptured = true) (hslice : takeBytes 8 hash = some pre8)
    (hvalid : isValidHeaderValue
      (chars "attachment; filename=\"" ++ pre8 ++ chars ".bin\"") = true) :
    ∃ r, (download_by_hash_impl st hash p).result = some (.ok r)
      ∧ r.status = 200
      ∧ r.contentType = chars "application/octet-stream"
      ∧ r.contentDisposition =
          chars "attachment; filename=\"" ++ pre8 ++ chars ".bin\""
      ∧ r.contentLength = none
      ∧ (∃ t, hash = pre8 ++ t) := by
  refine ⟨{ status := 200
            contentType := chars "application/octet-stream"
            contentDisposition :=
              chars "attachment; filename=\"" ++ pre8 ++ chars ".bin\""
            contentLength := none
            body := p.stdoutBytes },
    ?_, rfl, rfl, rfl, rfl, takeBytes_prefix 8 hash pre8 hslice⟩
  simp only [download_by_hash_impl, hslice]
  rw [if_neg (by simp [hspawn]), if_neg (by simp [hout]),
    if_neg (by simp [herr]), if_neg (by simp [← List.append_assoc, hvalid])]

/-- Witness for C7 (amended): the framed response for the valid hash
`h64`, whose 8-byte prefix is `01234567`. -/
theorem c7_response_framing_witness :
    ∃ r, (download_by_hash_impl stA h64 pA).result = some (.ok r)
      ∧ r.status = 200
      ∧ r.contentType = chars "application/octet-stream"
      ∧ r.contentDisposition =
          chars "attachment; filename=\"" ++ chars "01234567" ++ chars ".bin\""
      ∧ r.contentLength = none
      ∧ (∃ t, h64 = chars "01234567" ++ t) :=
  c7_response_framing stA h64 (chars "01234567") pA rfl rfl rfl
    (by decide) (by decide)

/-- Counterexample to C8 as stated: the handler is claimed never to panic
for hashes of any length, but the slice `&hash[..8]` in
`download_by_hash_impl` is taken on an unvalidated resolver-produced hash;
for the three-byte resolver hash `abc` (listing `f xetHash: abc`) the slice
is out of bounds and the handler panics (modelled as result `none`). -/
theorem c8_short_hash_cex :
    (download_by_hash_impl stA (chars "abc") pA).result = none
  ∧ (download_by_path stA (chars "o") (chars "r") (chars "f")
      listingShortHashA pA).result = none := by
  exact ⟨by decide, by decide⟩

/-- Claim C8 (amended): `download_by_hash_impl` returns a response or an
`AppError` without panicking for every hash whose first 8 bytes exist and
end on a character boundary — in particular for every hash that passes the
64-hex-character validation of `download_by_hash`; hashes shorter than
8 bytes (or with a character straddling byte 8) make the slice
`&hash[..8]` panic. -/
theorem c8_no_panic (st : AppState) (hash : List Char) (p : FetchProc)
    (hslice : (takeBytes 8 hash).isSome = true) :
    ((download_by_hash_impl st hash p).result).isSome = true
  ∧ (hash.all isAsciiHexdigit = true → hash.length = 64 →
      ((download_by_hash st hash p).result).isSome = true) := by
  have impl_some : ∀ h2 : List Char, (takeBytes 8 h2).isSome = true →
      ((download_by_hash_impl st h2 p).result).isSome = true := by
    intro h2 hs
    simp only [download_by_hash_impl]
    split
    · rfl
    · split
      · rfl
      · split
        · rfl
        · split
          · next heq => rw [heq] at hs; simp at hs
          · split <;> rfl
  refine ⟨impl_some hash hslice, fun hhex hlen => ?_⟩
  unfold download_by_hash
  split
  · rfl
  · exact impl_some hash hslice

/-- Witness for C8 (amended): the valid 64-hex hash `h64` panics nowhere on
either entry point. -/
theorem c8_no_panic_witness :
    ((download_by_hash_impl stA h64 pA).result).isSome = true
  ∧ ((download_by_hash stA h64 pA).result).isSome = true :=
  ⟨(c8_no_panic stA h64 pA (by decide)).1,
   (c8_no_panic stA h64 pA (by decide)).2 (by decide) (by decide)⟩

/-- Claim C9: every fetch invocation — from either entry point — runs the
configured tool with exactly two positional arguments, the fixed
placeholder repository first and the target hash second, the credential in
the `HF_TOKEN` environment variable, both stdout and stderr captured as
pipes, and nothing written to the child's stdin. -/
theorem c9_fetch_invocation (st : AppState)
    (hash owner repo file : List Char) (l : ListingProc) (p : FetchProc) :
    (∀ c ∈ (download_by_hash st hash p).spawned,
        c.program = st.zig_bin_path ∧ c.args = [placeholderRepo, hash] ∧
        c.args.length = 2 ∧
        c.envs = [(chars "HF_TOKEN", st.hf_token)] ∧ c.stdoutPiped = true ∧
        c.stderrPiped = true ∧ c.stdinWrites = [])
  ∧ (∀ c ∈ (download_by_path st owner repo file l p).spawned,
        c.program = st.zig_bin_path ∧
        (∃ h2, c.args = [placeholderRepo, h2]) ∧ c.args.length = 2 ∧
        c.envs = [(chars "HF_TOKEN", st.hf_token)] ∧ c.stdoutPiped = true ∧
        c.stderrPiped = true ∧ c.stdinWrites = []) := by
  have himpl : ∀ (h2 : List Char) (c : Cmd),
      c ∈ (download_by_hash_impl st h2 p).spawned → c = fetchCmd st h2 := by
    intro h2 c hc
    rw [impl_spawned] at hc
    simpa using hc
  constructor
  · intro c hc
    unfold download_by_hash at hc
    split at hc
    · simp at hc
    · rw [himpl hash c hc]
      exact ⟨rfl, rfl, rfl, rfl, rfl, rfl, rfl⟩
  · intro c hc
    unfold download_by_path at hc
    split at hc
    · simp at hc
    · split at hc
      · simp at hc
      · cases hres : findXetHash file (rustLines l.stdout) <;> rw [hres] at hc
        · simp at hc
        · next h2 =>
            rw [himpl h2 c hc]
            exact ⟨rfl, ⟨h2, rfl⟩, rfl, rfl, rfl, rfl, rfl⟩

/-- Witness for C9: the concrete fetch command for `h64`. -/
theorem c9_fetch_invocation_witness :
    (fetchCmd stA h64).program = stA.zig_bin_path ∧
    (fetchCmd stA h64).args = [placeholderRepo, h64] ∧
    (fetchCmd stA h64).args.length = 2 ∧
    (fetchCmd stA h64).envs = [(chars "HF_TOKEN", stA.hf_token)] ∧
    (fetchCmd stA h64).stdoutPiped = true ∧
    (fetchCmd stA h64).stderrPiped = true ∧
    (fetchCmd stA h64).stdinWrites = [] :=
  (c9_fetch_invocation stA h64 (chars "o") (chars "r") (chars "f")
    listingOkA pA).1 (fetchCmd stA h64) (by decide)

/-- Claim C10: the stderr-draining task forwards every stderr line to the
logging sink (prefixed `zig stderr: `), terminates with the finite line
sequence, and produces nothing the HTTP layer consumes: the handler's
result and its spawn behaviour are invariant under arbitrary changes of
the child's stderr output. -/
theorem c10_stderr_drain (st : AppState) (hash : List Char) (p : FetchProc)
    (altLines : List (List Char)) :
    ((download_by_hash_impl st hash
        { p with stderrLines := altLines }).result =
      (download_by_hash_impl st hash p).result)
  ∧ ((download_by_hash_impl st hash
        { p with stderrLines := altLines }).spawned =
      (download_by_hash_impl st hash p).spawned)
  ∧ (p.spawnOk = true → p.stdoutCaptured = true → p.stderrCaptured = true →
      (download_by_hash_impl st hash p).stderrLog =
        p.stderrLines.map (fun l => chars "zig stderr: " ++ l)) := by
  have key :
      ((download_by_hash_impl st hash
          { p with stderrLines := altLines }).result =
        (download_by_hash_impl st hash p).result) ∧
      ((download_by_hash_impl st hash
          { p with stderrLines := altLines }).spawned =
        (download_by_hash_impl st hash p).spawned) := by
    simp only [download_by_hash_impl]
    by_cases hso : p.spawnOk = false
    · rw [if_pos hso, if_pos hso]; exact ⟨rfl, rfl⟩
    · rw [if_neg hso, if_neg hso]
      by_cases hsoc : p.stdoutCaptured = false
      · rw [if_pos hsoc, if_pos hsoc]; exact ⟨rfl, rfl⟩
      · rw [if_neg hsoc, if_neg hsoc]
        by_cases hsec : p.stderrCaptured = false
        · rw [if_pos hsec, if_pos hsec]; exact ⟨rfl, rfl⟩
        · rw [if_neg hsec, if_neg hsec]
          cases takeBytes 8 hash with
          | none => exact ⟨rfl, rfl⟩
          | some pre8 =>
            dsimp only
            by_cases hv : isValidHeaderValue
                (chars "attachment; filename=\"" ++ pre8 ++
                  chars ".bin\"") = false
            · rw [if_pos hv, if_pos hv]; exact ⟨rfl, rfl⟩
            · rw [if_neg hv, if_neg hv]; exact ⟨rfl, rfl⟩
  refine ⟨key.1, key.2, fun h1 h2 h3 => ?_⟩
  simp only [download_by_hash_impl]
  rw [if_neg (by simp [h1]), if_neg (by simp [h2]), if_neg (by simp [h3])]
  split
  · rfl
  · split <;> rfl

/-- Witness for C10: flooding stderr does not change the result delivered
to the HTTP layer, and the drained log is the line-by-line forwarding of
the child's stderr. -/
theorem c10_stderr_drain_witness :
    (download_by_hash_impl stA h64
        { pA with stderrLines := [chars "flood"] }).result =
      (download_by_hash_impl stA h64 pA).result
  ∧ (download_by_hash_impl stA h64 pA).stderrLog =
      pA.stderrLines.map (fun l => chars "zig stderr: " ++ l) :=
  ⟨(c10_stderr_drain stA h64 pA [chars "flood"]).1,
   (c10_stderr_drain stA h64 pA [chars "flood"]).2.2 rfl rfl rfl⟩

end XetProxy
